import Mathlib

/-!
Verification of the advanced-vector container (src/advanced-vector/vector.h).

Two layers of modelling are used:

* `Vec T` — a value-level shallow embedding of `Vector<T>`: its capacity
  (`data_.Capacity()`) and the list of live element values (slots `[0, size_)`).
  It is adequate for the claims that talk only about sizes, capacities and
  element values.

* `VecRep T` — a slot-level embedding used for the lifetime/exception-safety
  claims.  A buffer is a list of slots, each slot either `raw` (uninitialised
  bytes) or `live v` (a constructed `T` holding value `v`).  Destroying a raw
  slot is undefined behaviour and is modelled by `Option`/an explicit `ub`
  outcome.  Throwing copy constructions are modelled by a budget: the
  instrumented element type throws on the copy that exhausts the budget.
-/

namespace AdvVector

/-- Value-level model of `Vector<T>`: `cap` is `data_.Capacity()`, `elems`
lists the values of the live elements in slots `[0, size_)`, so
`elems.length` is `size_`. -/
structure Vec (T : Type) where
  cap : Nat
  elems : List T
  deriving Repr, DecidableEq

variable {T : Type}

/-- `Vector::Size()` — returns `size_`. -/
def Vec.size (v : Vec T) : Nat := v.elems.length

/-- `Vector::Capacity()` — returns `data_.Capacity()`. -/
def Vec.capacity (v : Vec T) : Nat := v.cap

/-- `Vector::Reserve(new_capacity)` (vector.h:158-170): returns unchanged if
`new_capacity <= data_.Capacity()`; otherwise allocates a fresh buffer of
exactly `new_capacity` slots, relocates the `size_` live elements into its
slots `0..size_-1` (by move or copy; either way the element values carried
over are those of the originals), destroys the originals and swaps
storages. -/
def Vec.reserve (v : Vec T) (new_capacity : Nat) : Vec T :=
  if new_capacity ≤ v.cap then v
  else { cap := new_capacity, elems := v.elems }

/-- `Vector::EmplaceBack` / `PushBack` (vector.h:182-207), value level.
If `size_ == data_.Capacity()` the growing path allocates
`size_ == 0 ? 1 : size_ * 2` slots, constructs the new element in slot
`size_` of the new buffer, relocates the old elements into slots
`0..size_-1`, destroys the originals and swaps; otherwise the element is
constructed in place in slot `size_`.  Both paths end with `++size_`. -/
def Vec.emplaceBack (v : Vec T) (x : T) : Vec T :=
  if v.elems.length = v.cap then
    { cap := if v.elems.length = 0 then 1 else v.elems.length * 2
      elems := v.elems ++ [x] }
  else
    { cap := v.cap, elems := v.elems ++ [x] }

/-- `Vector::PushBack(value)` forwards to `EmplaceBack` (vector.h:182-185). -/
def Vec.pushBack (v : Vec T) (x : T) : Vec T := v.emplaceBack x

/-- `Vector::Erase(pos)` body (vector.h:292-299) at offset `index = pos - cbegin()`:
`std::move` shifts the values of slots `index+1 .. size_-1` one slot left,
slot `size_-1` is destroyed and `size_` is decremented.  The function
returns `data_.GetAddress() + index`; we return the offset `index` together
with the new vector. -/
def Vec.erase (v : Vec T) (index : Nat) : Vec T × Nat :=
  ({ cap := v.cap, elems := v.elems.take index ++ v.elems.drop (index + 1) }, index)

/-- The guarding assertion at the head of `Vector::Erase` (vector.h:293):
`assert(pos >= cbegin() && pos <= cend())`.  With `pos = cbegin() + index`
(`index : Nat`), `pos >= cbegin()` always holds and `pos <= cend()` is
`index <= size_`. -/
def Vec.eraseAssertPasses (v : Vec T) (index : Nat) : Bool :=
  index ≤ v.elems.length

/-- `Vector::operator=(const Vector&)` (vector.h:121-143), path taken when
`this != &rhs`.  If `rhs.size_ > data_.Capacity()`, a full copy is built and
swapped in (new capacity `rhs.size_`).  Otherwise the storage is reused:
if `rhs.size_ < size_` the first `rhs.size_` slots are copy-assigned from
`rhs` and the surplus destroyed; else the first `size_` slots are
copy-assigned from `rhs` and then `uninitialized_copy_n(rhs.data_.GetAddress(),
rhs.size_ - size_, data_.GetAddress() + i)` copy-constructs the remaining
slots — reading from the START of `rhs`'s buffer, i.e. from
`rhs.elems.take (rhs.size_ - size_)`, not from the corresponding slots. -/
def Vec.copyAssignNoSelf (target rhs : Vec T) : Vec T :=
  if rhs.elems.length > target.cap then
    { cap := rhs.elems.length, elems := rhs.elems }
  else if rhs.elems.length < target.elems.length then
    { cap := target.cap, elems := rhs.elems }
  else
    { cap := target.cap
      elems := rhs.elems.take target.elems.length
               ++ rhs.elems.take (rhs.elems.length - target.elems.length) }

/-- `Vector::operator=(const Vector&)` with the `this != &rhs` guard
(vector.h:122).  `same` models the pointer identity `this == &rhs`: when it
holds the body is skipped and the target is returned unchanged. -/
def Vec.copyAssignOp (same : Bool) (target rhs : Vec T) : Vec T :=
  if same then target else target.copyAssignNoSelf rhs

/-- `Vector::operator=(Vector&&)` (vector.h:145-151) at the value level,
including the `this != &rhs` guard.  When the objects are distinct the
buffers are swapped and `size_ = std::exchange(rhs.size_, 0)`; the result is
the pair (target afterwards, rhs afterwards).  After the swap `rhs`'s buffer
holds the target's former elements but `rhs.size_` is set to 0, so at the
value level `rhs` reports no live elements. -/
def Vec.moveAssignOp (same : Bool) (target rhs : Vec T) : Vec T × Vec T :=
  if same then (target, rhs)
  else ({ cap := rhs.cap, elems := rhs.elems }, { cap := target.cap, elems := [] })

/-- `Vector::Vector(Vector&&)` (vector.h:114-119): `data_` is move-constructed
from `other.data_` (stealing the buffer and capacity, leaving other's storage
null/0), `size_` is `std::exchange(other.size_, 0)`; the trailing
`std::uninitialized_move_n(other.data_.GetAddress(), other.size_, ...)` then
moves `other.size_ = 0` elements from the null buffer, a no-op.  Returns the
pair (new vector, other afterwards). -/
def Vec.moveCtor (other : Vec T) : Vec T × Vec T :=
  let stolenCap := other.cap
  let stolenElems := other.elems
  let newSize := other.elems.length
  ({ cap := stolenCap, elems := stolenElems.take newSize }, { cap := 0, elems := [] })

/-! ## Slot-level model

Element lifetime and exception-safety claims need to see individual slots of
the raw storage.  A slot is `raw` (uninitialised or already-destroyed bytes)
or `live v`.  Running a destructor on a `raw` slot is undefined behaviour
(`destroyN` returns `none`); destroying a `live` slot returns it to `raw`. -/

/-- One `T`-sized slot of a `RawMemory<T>` buffer. -/
inductive Slot (T : Type) where
  | raw : Slot T
  | live : T → Slot T
  deriving Repr, DecidableEq

/-- Whether the slot currently holds a constructed `T`. -/
def Slot.isLive : Slot T → Bool
  | .raw => false
  | .live _ => true

/-- The value held by a live slot. -/
def Slot.val? : Slot T → Option T
  | .raw => none
  | .live x => some x

/-- Number of constructed-but-not-destroyed elements in a buffer: those are
exactly the elements whose constructor has run and whose destructor has not,
so constructor-count minus destructor-count over a set of buffers is the sum
of their `liveCount`s. -/
def liveCount (slots : List (Slot T)) : Nat :=
  slots.countP fun s => s.isLive

/-- `std::destroy_n(buf + start, count)`: runs the destructor on each slot of
`[start, start + count)` in turn.  Destroying a slot that does not hold a
constructed `T` (a raw or already-destroyed slot, or a slot outside the
buffer) is undefined behaviour, modelled as `none`. -/
def destroyN (slots : List (Slot T)) (start : Nat) : Nat → Option (List (Slot T))
  | 0 => some slots
  | count + 1 =>
    if h : start < slots.length then
      match slots.get ⟨start, h⟩ with
      | .live _ => destroyN (slots.set start .raw) (start + 1) count
      | .raw => none
    else none

/-- `std::uninitialized_copy_n(src, src.length, buf + dstStart)` for an
instrumented element type whose copy constructor succeeds `budget` times and
throws on the next copy.  On success, returns the updated buffer and the
remaining budget.  On failure, `uninitialized_copy_n` destroys the elements
it had constructed, so the buffer is back in its pre-call state (the caller
keeps using the buffer it passed in); the result is `none`. -/
def uninitCopyN (src : List T) (dst : List (Slot T)) (dstStart budget : Nat) :
    Option (List (Slot T) × Nat) :=
  match src, budget with
  | [], b => some (dst, b)
  | _ :: _, 0 => none
  | v :: rest, b + 1 => uninitCopyN rest (dst.set dstStart (.live v)) (dstStart + 1) b

/-- Slot-level state of a `Vector<T>`: the slots of `data_`'s buffer
(`slots.length` is the capacity) and `size_`. -/
structure VecRep (T : Type) where
  slots : List (Slot T)
  size : Nat
  deriving Repr, DecidableEq

/-- The class invariant of `Vector<T>`: `size_ ≤ Capacity()` and slots
`[0, size_)` hold constructed values. -/
def VecRep.WF (v : VecRep T) : Prop :=
  v.size ≤ v.slots.length ∧ ∀ s ∈ v.slots.take v.size, s.isLive = true

/-- The values of the live elements in slots `[0, size_)`. -/
def VecRep.liveVals (v : VecRep T) : List T :=
  (v.slots.take v.size).filterMap Slot.val?

/-- `Vector::~Vector` (vector.h:103-105): `std::destroy_n(data_.GetAddress(),
size_)`, after which `RawMemory` frees the buffer without running any further
destructors.  Returns the slot states at the moment the buffer is released
(`none` on undefined behaviour); any slot still live at that point is a
leaked element — constructed, never destroyed. -/
def VecRep.destructor (v : VecRep T) : Option (List (Slot T)) :=
  destroyN v.slots 0 v.size

/-- `Vector::operator=(Vector&&)` (vector.h:145-151) at slot level, with the
`this != &rhs` guard (`same` models `this == &rhs`).  For distinct objects:
`data_.Swap(rhs.data_)` exchanges the buffers, then
`size_ = std::exchange(rhs.size_, 0)`.  The target's former elements remain
constructed in the buffer now held by `rhs`, whose `size_` is 0. -/
def VecRep.moveAssignOp (same : Bool) (target rhs : VecRep T) : VecRep T × VecRep T :=
  if same then (target, rhs)
  else ({ slots := rhs.slots, size := rhs.size }, { slots := target.slots, size := 0 })

/-- Outcome of a growing append/insert on the slot-level model. -/
inductive GrowOutcome (T : Type) where
  | success : VecRep T → GrowOutcome T
  | failure : VecRep T → Nat → GrowOutcome T
  | ub : GrowOutcome T
  deriving Repr, DecidableEq

/-- The growing branch of `Vector::EmplaceBack` (vector.h:188-202), taken when
`size_ == data_.Capacity()`, for an instrumented copyable `T` (relocation
uses `std::uninitialized_copy_n`): allocate `size_ == 0 ? 1 : size_ * 2` raw
slots, construct the new element in slot `size_` of the new buffer
(`ctorThrows` models that construction throwing, in which case the new buffer
is released and the exception propagates), relocate the old elements into
slots `0..size_-1` with `budget` successful copies; on relocation failure
the `catch` destroys the pre-placed new element (`new_element->~T()`) and
rethrows, the new buffer being released on unwind.  `failure orig leaked`
reports the original vector at the propagation point and the number of still
live slots in the released new buffer; `ub` reports a destructor run on a
non-constructed slot. -/
def VecRep.emplaceBackGrow (v : VecRep T) (x : T) (ctorThrows : Bool) (budget : Nat) :
    GrowOutcome T :=
  let n := v.size
  let newCap := if n = 0 then 1 else n * 2
  let slots0 : List (Slot T) := List.replicate newCap .raw
  if ctorThrows then .failure v (liveCount slots0)
  else
    let slots1 := slots0.set n (.live x)
    match uninitCopyN v.liveVals slots1 0 budget with
    | none =>
      match destroyN slots1 n 1 with
      | none => .ub
      | some slots2 => .failure v (liveCount slots2)
    | some (slotsNew, _) =>
      match destroyN v.slots 0 n with
      | none => .ub
      | some _ => .success { slots := slotsNew, size := n + 1 }

/-- The growing branch of `Vector::Emplace` (vector.h:259-277), taken when
`size_ == data_.Capacity()`, for an instrumented copyable `T`: allocate
`size_ == 0 ? 1 : size_ * 2` raw slots, construct the new element in slot
`index` of the new buffer, copy slots `0..index-1` to new slots `0..index-1`,
then slots `index..size_-1` to new slots `index+1..size_`.  On relocation
failure the `catch` runs `std::destroy_n(new_data.GetAddress(), index)`
followed by `new_element->~T()` and rethrows. -/
def VecRep.emplaceGrow (v : VecRep T) (index : Nat) (x : T) (budget : Nat) :
    GrowOutcome T :=
  let n := v.size
  let newCap := if n = 0 then 1 else n * 2
  let slots0 : List (Slot T) := List.replicate newCap .raw
  let slots1 := slots0.set index (.live x)
  let vals := v.liveVals
  let afterCatch : List (Slot T) → GrowOutcome T := fun cur =>
    match destroyN cur 0 index with
    | none => .ub
    | some s2 =>
      match destroyN s2 index 1 with
      | none => .ub
      | some s3 => .failure v (liveCount s3)
  match uninitCopyN (vals.take index) slots1 0 budget with
  | none => afterCatch slots1
  | some (slotsP, budgetP) =>
    match uninitCopyN (vals.drop index) slotsP (index + 1) budgetP with
    | none => afterCatch slotsP
    | some (slotsS, _) =>
      match destroyN v.slots 0 n with
      | none => .ub
      | some _ => .success { slots := slotsS, size := n + 1 }

/-! ## Helper lemmas -/

lemma liveCount_replicate_raw (c : Nat) : liveCount (List.replicate c (Slot.raw : Slot T)) = 0 := by
  simp [liveCount, List.countP_eq_zero, Slot.isLive]

lemma uninitCopyN_eq_none (src : List T) (dst : List (Slot T)) (s b : Nat)
    (h : b < src.length) : uninitCopyN src dst s b = none := by
  induction src generalizing dst s b with
  | nil => simp at h
  | cons v rest ih =>
    cases b with
    | zero => rfl
    | succ b =>
      simp only [List.length_cons, Nat.succ_lt_succ_iff] at h
      simpa [uninitCopyN] using ih (dst.set s (.live v)) (s + 1) b h

lemma filterMap_val_length (l : List (Slot T)) (h : ∀ s ∈ l, s.isLive = true) :
    (l.filterMap Slot.val?).length = l.length := by
  induction l with
  | nil => rfl
  | cons s rest ih =>
    cases s with
    | raw => simp [Slot.isLive] at h
    | live x =>
      simp only [List.mem_cons, forall_eq_or_imp] at h
      simp [List.filterMap_cons, Slot.val?, ih h.2]

lemma VecRep.liveVals_length (v : VecRep T) (hwf : v.WF) : v.liveVals.length = v.size := by
  have := filterMap_val_length (v.slots.take v.size) hwf.2
  rw [VecRep.liveVals, this, List.length_take]
  exact Nat.min_eq_left hwf.1

lemma destroyN_one (slots : List (Slot T)) (i : Nat) (h : i < slots.length) (x : T)
    (hx : slots.get ⟨i, h⟩ = .live x) : destroyN slots i 1 = some (slots.set i .raw) := by
  unfold destroyN
  rw [dif_pos h, hx]
  rfl

/-! ## Claim theorems -/

/-- C1: the claim asserts that copy-assignment with
`target.Size() < rhs.Size() ≤ target.Capacity()` copy-constructs the slots
`[target.Size(), rhs.Size())` from the *corresponding* slots of `rhs` and
leaves `target` elementwise equal to `rhs`.  The code (vector.h:137) passes
`rhs.data_.GetAddress()` — the start of `rhs`'s buffer, with no `+ i`
offset — as the source of `uninitialized_copy_n`.  Evaluating the code at
`target = (cap 2, [10])`, `rhs = [1, 2]`: the result is `[1, 1]`, not
`rhs = [1, 2]`. -/
theorem copyAssign_growth_tail_from_start :
    Vec.copyAssignNoSelf ⟨2, [10]⟩ ⟨2, [1, 2]⟩ = ⟨2, [1, 1]⟩ ∧
    Vec.copyAssignNoSelf ⟨2, [10]⟩ ⟨2, [1, 2]⟩ ≠ (⟨2, [1, 2]⟩ : Vec Nat) := by
  decide

/-- C2: the claim asserts that no public operation leaks live elements — in
particular that move-assignment must not leave the target's previously live
elements undestroyed.  The code (vector.h:145-151) swaps the buffers and then
sets `rhs.size_` to 0, so the target's former live elements sit in `rhs`'s
buffer with a size of 0: with `target` holding one constructed element and
`rhs` empty, after `target = std::move(rhs)` both sizes are 0, yet running
both destructors leaves the element still constructed (`some [Slot.live 7]`)
when its buffer is released — one constructor call and no destructor call,
violating ctor-count − dtor-count = ΣSize(). -/
theorem moveAssign_leaks_target_elements :
    ((VecRep.moveAssignOp false ⟨[Slot.live (7 : Nat)], 1⟩ ⟨[], 0⟩).1.size = 0 ∧
     (VecRep.moveAssignOp false ⟨[Slot.live (7 : Nat)], 1⟩ ⟨[], 0⟩).2.size = 0) ∧
    (VecRep.moveAssignOp false ⟨[Slot.live (7 : Nat)], 1⟩ ⟨[], 0⟩).2.destructor
      = some [Slot.live 7] ∧
    liveCount [Slot.live (7 : Nat)] = 1 := by
  decide

/-- C3: the claim asserts that when a growing `Emplace` fails during
relocation, only the elements actually placed in the new storage (plus the
pre-constructed new element) are destroyed, each exactly once, and no raw
slot is destroyed — in particular when the failure occurs in the prefix
`0..i-1`.  The code's catch block (vector.h:271-272) runs
`std::destroy_n(new_data.GetAddress(), index)` unconditionally, but on a
prefix failure `uninitialized_copy_n` has already destroyed its partial work,
so those `index` slots are raw: with one live element, `Emplace` at the end
(`index = 1`) and the first relocation copy throwing (budget 0), the catch
destroys raw slot 0 — undefined behaviour, not the clean unwind the claim
describes. -/
theorem emplaceGrow_prefix_failure_ub :
    VecRep.WF ⟨[Slot.live (5 : Nat)], 1⟩ ∧
    VecRep.emplaceGrow ⟨[Slot.live (5 : Nat)], 1⟩ 1 9 0 = .ub :=
  ⟨⟨by decide, by decide⟩, by decide⟩

/-- C4: the claim asserts that the assertion guarding `Erase` rejects
`pos = end()`.  The assertion (vector.h:293) is
`assert(pos >= cbegin() && pos <= cend())`, which accepts `pos = end()`
(offset `index = size_`): for every vector the modelled assertion passes at
`index = Size()`, so an `Erase(end())` call — including on an empty
vector — is not rejected and runs into the out-of-range destroy and the
size decrement. -/
theorem erase_assert_accepts_end (v : Vec T) : v.eraseAssertPasses v.size = true := by
  simp [Vec.eraseAssertPasses, Vec.size]

/-- C5: `Reserve(k)` is a no-op when `k ≤ Capacity()`; otherwise it leaves the
element values (hence `Size()`) unchanged and yields
`Capacity() ≥ max(k, prior Capacity())`. -/
theorem reserve_frame (v : Vec T) (k : Nat) :
    (v.reserve k).elems = v.elems ∧
    (k ≤ v.capacity → v.reserve k = v) ∧
    (v.capacity < k → max k v.capacity ≤ (v.reserve k).capacity) := by
  refine ⟨?_, fun h => ?_, fun h => ?_⟩
  · simp only [Vec.reserve]
    split <;> rfl
  · simp only [Vec.capacity] at h
    simp only [Vec.reserve, if_pos h]
  · simp only [Vec.capacity] at h ⊢
    simp only [Vec.reserve, if_neg (by omega : ¬ k ≤ v.cap)]
    exact max_le (Nat.le_refl k) (Nat.le_of_lt h)

/-- Witness for C5 at concrete inputs: `Reserve(1)` on a vector of capacity 2
is the identity, and `Reserve(4)` reaches capacity `max 4 2`. -/
theorem reserve_frame_witness :
    (1 ≤ (⟨2, [5, 6]⟩ : Vec Nat).capacity ∧ Vec.reserve ⟨2, [5, 6]⟩ 1 = ⟨2, [5, 6]⟩) ∧
    ((⟨2, [5, 6]⟩ : Vec Nat).capacity < 4 ∧
      max 4 (⟨2, [5, 6]⟩ : Vec Nat).capacity ≤ (Vec.reserve ⟨2, [5, 6]⟩ 4).capacity) :=
  ⟨⟨by decide, (reserve_frame ⟨2, [5, 6]⟩ 1).2.1 (by decide)⟩,
   ⟨by decide, (reserve_frame ⟨2, [5, 6]⟩ 4).2.2 (by decide)⟩⟩

/-- C6: when an append finds `Size() == Capacity()`, the capacity after the
append is `max 1 (2·C)`; and after `PushBack(x)` the size has grown by one
and the last element is `x`. -/
theorem pushBack_growth_policy (v : Vec T) (x : T) :
    (v.size = v.capacity → (v.pushBack x).capacity = max 1 (2 * v.capacity)) ∧
    (v.pushBack x).size = v.size + 1 ∧
    (v.pushBack x).elems.getLast? = some x := by
  refine ⟨fun h => ?_, ?_, ?_⟩
  · simp only [Vec.size, Vec.capacity] at h
    simp only [Vec.pushBack, Vec.emplaceBack, Vec.capacity, if_pos h]
    rw [← h]
    rcases Nat.eq_zero_or_pos v.elems.length with h0 | h0
    · simp [h0]
    · rw [if_neg (by omega), Nat.max_eq_right (by omega)]
      omega
  · simp only [Vec.pushBack, Vec.emplaceBack, Vec.size]
    split <;> simp
  · simp only [Vec.pushBack, Vec.emplaceBack]
    split <;> simp

/-- Witness for C6 at a full vector of one element: pushing grows the
capacity to `max 1 2 = 2`, the size to 2, and puts the new element last. -/
theorem pushBack_growth_policy_witness :
    (⟨1, [3]⟩ : Vec Nat).size = (⟨1, [3]⟩ : Vec Nat).capacity ∧
    (Vec.pushBack ⟨1, [3]⟩ 7).capacity = max 1 (2 * (⟨1, [3]⟩ : Vec Nat).capacity) ∧
    (Vec.pushBack ⟨1, [3]⟩ 7).size = (⟨1, [3]⟩ : Vec Nat).size + 1 ∧
    (Vec.pushBack (⟨1, [3]⟩ : Vec Nat) 7).elems.getLast? = some 7 :=
  ⟨by decide, (pushBack_growth_policy ⟨1, [3]⟩ 7).1 (by decide),
   (pushBack_growth_policy ⟨1, [3]⟩ 7).2.1, (pushBack_growth_policy ⟨1, [3]⟩ 7).2.2⟩

/-- C7: strong exception safety of growing `EmplaceBack` for an instrumented
copyable `T`.  For every well-formed full vector (`size_ == Capacity()`), if
the construction of the new element throws (`ctorThrows`), or relocation
throws (`budget < size_`, the budget-th copy failing after the new element
was placed), then the operation propagates the failure with the vector —
its size, capacity and every element — unchanged, and no live element is
left in the released new buffer: the pre-placed new element was destroyed,
and since no destructor ran on a non-constructed slot (the outcome is
`failure`, not `ub`), it was destroyed exactly once. -/
theorem emplaceBackGrow_strong_safety (v : VecRep T) (x : T) (ctorThrows : Bool) (budget : Nat)
    (hwf : v.WF) (hfull : v.size = v.slots.length)
    (hfail : ctorThrows = true ∨ budget < v.size) :
    v.emplaceBackGrow x ctorThrows budget = .failure v 0 := by
  cases ctorThrows with
  | true => simp [VecRep.emplaceBackGrow, liveCount_replicate_raw]
  | false =>
    have hb : budget < v.size := by
      rcases hfail with h | h
      · exact absurd h (by simp)
      · exact h
    have hvals : budget < v.liveVals.length := by
      rw [v.liveVals_length hwf]
      exact hb
    have hnlt : v.size < (if v.size = 0 then 1 else v.size * 2) := by
      split <;> omega
    simp only [VecRep.emplaceBackGrow, Bool.false_eq_true, if_false]
    rw [uninitCopyN_eq_none _ _ _ _ hvals]
    have hlen : v.size <
        ((List.replicate (if v.size = 0 then 1 else v.size * 2) (Slot.raw : Slot T)).set
          v.size (Slot.live x)).length := by
      simpa using hnlt
    rw [destroyN_one _ _ hlen x (by simp)]
    rw [List.set_set, List.set_replicate_self]
    simp [liveCount_replicate_raw]

/-- Witness for C7: a full one-element vector, relocation failing on its
first copy (budget 0). -/
theorem emplaceBackGrow_strong_safety_witness :
    (VecRep.WF ⟨[Slot.live (5 : Nat)], 1⟩ ∧
     (⟨[Slot.live (5 : Nat)], 1⟩ : VecRep Nat).size
       = (⟨[Slot.live (5 : Nat)], 1⟩ : VecRep Nat).slots.length ∧
     0 < (⟨[Slot.live (5 : Nat)], 1⟩ : VecRep Nat).size) ∧
    VecRep.emplaceBackGrow ⟨[Slot.live (5 : Nat)], 1⟩ 9 false 0
      = .failure ⟨[Slot.live (5 : Nat)], 1⟩ 0 :=
  ⟨⟨⟨by decide, by decide⟩, rfl, by decide⟩,
   emplaceBackGrow_strong_safety ⟨[Slot.live (5 : Nat)], 1⟩ 9 false 0
     ⟨by decide, by decide⟩ rfl (Or.inr (by decide))⟩

/-- C8: move construction steals the source's storage and size — the new
vector has the source's former capacity and elements (hence its size), the
source is left empty with capacity 0 — and, being a total function of the
source (`noexcept` in the code, no allocation), it never fails. -/
theorem moveCtor_steals (other : Vec T) :
    (other.moveCtor.1.capacity = other.capacity ∧
     other.moveCtor.1.elems = other.elems) ∧
    other.moveCtor.2.size = 0 ∧ other.moveCtor.2.capacity = 0 := by
  refine ⟨⟨rfl, ?_⟩, rfl, rfl⟩
  simp [Vec.moveCtor]

/-- C9: `Erase` at a valid position `i < Size()` shifts the values of slots
`i+1..n-1` one slot left (slot `j` afterwards holds the old slot `j+1` for
every `j ≥ i`, the slots before `i` are untouched), shrinks the size by one,
keeps the capacity, and returns offset `i`, which then refers to the element
that previously followed the erased one. -/
theorem erase_shifts_left (v : Vec T) (i : Nat) (h : i < v.size) :
    (v.erase i).1.size = v.size - 1 ∧
    (v.erase i).1.capacity = v.capacity ∧
    (∀ j, j < i → (v.erase i).1.elems[j]? = v.elems[j]?) ∧
    (∀ j, i ≤ j → (v.erase i).1.elems[j]? = v.elems[j + 1]?) ∧
    (v.erase i).2 = i := by
  simp only [Vec.size, Vec.capacity] at *
  refine ⟨?_, rfl, fun j hj => ?_, fun j hj => ?_, rfl⟩
  · simp only [Vec.erase, List.length_append, List.length_take, List.length_drop]
    omega
  · simp only [Vec.erase]
    rw [List.getElem?_append_left (by simp; omega)]
    exact List.getElem?_take_of_lt hj
  · simp only [Vec.erase]
    have hlen : (v.elems.take i).length = i := by simp; omega
    rw [List.getElem?_append_right (by omega), hlen, List.getElem?_drop]
    congr 1
    omega

/-- Witness for C9: the spec's concrete scenario — erasing index 3 from
`[0..9]` yields `[0,1,2,4,5,6,7,8,9]` and the returned offset 3 refers to
the value 4. -/
theorem erase_shifts_left_witness :
    3 < (⟨10, [0, 1, 2, 3, 4, 5, 6, 7, 8, 9]⟩ : Vec Nat).size ∧
    (Vec.erase ⟨10, [0, 1, 2, 3, 4, 5, 6, 7, 8, 9]⟩ 3).1.elems = [0, 1, 2, 4, 5, 6, 7, 8, 9] ∧
    (Vec.erase (⟨10, [0, 1, 2, 3, 4, 5, 6, 7, 8, 9]⟩ : Vec Nat) 3).1.elems[3]? = some 4 ∧
    (Vec.erase (⟨10, [0, 1, 2, 3, 4, 5, 6, 7, 8, 9]⟩ : Vec Nat) 3).2 = 3 :=
  ⟨by decide, by decide, by decide,
   (erase_shifts_left ⟨10, [0, 1, 2, 3, 4, 5, 6, 7, 8, 9]⟩ 3 (by decide)).2.2.2.2⟩

/-- C10: both assignment operators begin with an `if (this != &rhs)` guard
(vector.h:122, 146); when the operand is the object itself the body is
skipped, so self-assignment — copy or move — leaves size, capacity and every
element value unchanged. -/
theorem self_assignment_identity (a : Vec T) :
    Vec.copyAssignOp true a a = a ∧ Vec.moveAssignOp true a a = (a, a) :=
  ⟨rfl, rfl⟩

end AdvVector
